import Mathlib

/-!
Shallow embedding of the goci build orchestration core (src/project.go).

External commands (git, go build, mkdir, …) are modelled by an environment
oracle that fixes the outcome of each external call; the pipeline itself is
translated line by line from `StartBuild` and its helpers.  The run of the
pipeline also produces a trace of events (commands invoked, log writes,
the final status store) so that ordering properties can be stated.
-/

set_option autoImplicit false

deriving instance DecidableEq for Except

namespace Goci

/-- Build status, from the `BuildStatus` constants of project.go. -/
inductive BuildStatus where
  | BuildNotStarted
  | BuildInProgress
  | BuildFinished
  | BuildFailed
deriving DecidableEq, Repr

open BuildStatus

/-- One cross-compilation target, from `type Target` of project.go. -/
structure Target where
  OS : String := ""
  Arch : String := ""
  UseCgo : Bool := false
  Tags : List String := []
deriving DecidableEq, Repr

/-- Go's `\w` character class (the regexp package is ASCII by default). -/
def isWordChar (c : Char) : Bool :=
  ('a' ≤ c && c ≤ 'z') || ('A' ≤ c && c ≤ 'Z') || ('0' ≤ c && c ≤ '9') || c == '_'

/-- Take the maximal leading run of word characters. -/
def takeWordRun : List Char → List Char × List Char
  | [] => ([], [])
  | c :: cs =>
    if isWordChar c then
      let p := takeWordRun cs
      (c :: p.1, p.2)
    else ([], c :: cs)

/-- After the mandatory `\w+` in the tag group: repeatedly consume `,\w+`,
    succeed on `)` (the regexp is not anchored, trailing text is ignored).
    The fuel argument only forces structural termination; every iteration
    consumes at least two characters while fuel drops by one, so fuel
    `cs.length + 1` never runs out. -/
def tagsLoop (fuel : Nat) (acc : List Char) (cs : List Char) : Option String :=
  match fuel with
  | 0 => none
  | fuel + 1 =>
    match cs with
    | ')' :: _ => some (String.mk acc)
    | ',' :: r =>
      match takeWordRun r with
      | ([], _) => none
      | (c :: t, r1) => tagsLoop fuel (acc ++ ',' :: c :: t) r1
    | _ => none

/-- Try to match the optional group `\((\w+(?:,\w+)*)\)` at the given point. -/
def tryTags : List Char → Option String
  | '(' :: r =>
    match takeWordRun r with
    | ([], _) => none
    | (c :: t, r1) => tagsLoop (r1.length + 1) (c :: t) r1
  | _ => none

/-- Leftmost match of project.go's `targetRe`,
    `(\w+):(\w+)(?:\((\w+(?:,\w+)*)\))?`, over the characters of the
    descriptor; Go's `FindStringSubmatch` is not anchored, so the regexp is
    searched for anywhere in the string.  Returns (OS, Arch, optional tag
    group text).  Fuel only forces structural termination; every recursive
    call shortens the list, so fuel `cs.length` never runs out. -/
def findMatch (fuel : Nat) (cs : List Char) : Option (String × String × Option String) :=
  match fuel with
  | 0 => none
  | fuel + 1 =>
    match cs with
    | [] => none
    | c :: rest =>
      if isWordChar c then
        match takeWordRun (c :: rest) with
        | (run, ':' :: rest2) =>
          match takeWordRun rest2 with
          | ([], _) => findMatch fuel rest2
          | (a :: arch, rest3) =>
            some (String.mk run, String.mk (a :: arch), tryTags rest3)
        | (_, rest2) => findMatch fuel rest2
      else findMatch fuel rest

/-- Go's `strings.Split` for a one-character separator: split around every
    occurrence, so the empty string yields one empty field. -/
def splitGo (sep : Char) : List Char → List (List Char)
  | [] => [[]]
  | c :: rest =>
    if c = sep then [] :: splitGo sep rest
    else
      match splitGo sep rest with
      | [] => [[c]]
      | r :: rs => (c :: r) :: rs

/-- Parse one target descriptor, as the loop body at project.go:179-200:
    run the (unanchored) regexp, then split the third submatch on `,`
    (Go's `strings.Split` of the empty string yields one empty field),
    treating the literal tag `cgo` specially. -/
def parseTarget (s : String) : Option Target :=
  match findMatch s.toList.length s.toList with
  | none => none
  | some (os, arch, m3) =>
    let init : Target := { OS := os, Arch := arch }
    some (((splitGo ',' (m3.getD "").toList).map String.mk).foldl
      (fun t tag =>
        if tag == "cgo" then { t with UseCgo := true }
        else { t with Tags := t.Tags ++ [tag] })
      init)

/-- Go's `%q` on the plain tokens that reach the error messages here. -/
def goQuote (s : String) : String := "\"" ++ s ++ "\""

/-- Parse the space-separated list of descriptors, stopping at the first
    invalid one with the error of project.go:182. -/
def parseTargetList : List String → Except String (List Target)
  | [] => .ok []
  | s :: rest =>
    match parseTarget s with
    | none => .error ("Invalid target " ++ goQuote s)
    | some t =>
      match parseTargetList rest with
      | .error e => .error e
      | .ok ts => .ok (t :: ts)

/-- The target-matrix derivation of project.go:175-201: empty configuration
    means one all-default target, otherwise every space-separated descriptor
    must parse. -/
def parseTargets (targetStr : String) : Except String (List Target) :=
  if targetStr == "" then .ok [{}]
  else parseTargetList ((splitGo ' ' targetStr.toList).map String.mk)

/-- Output artifact name for a target, project.go:206-218. -/
def outfn (projName : String) (t : Target) : String :=
  let s := projName
  let s := if t.OS != "" then s ++ "-" ++ t.OS else s
  let s := if t.Arch != "" then s ++ "-" ++ t.Arch else s
  let s := if t.Tags.length > 0 then s ++ "-" ++ String.intercalate "-" t.Tags else s
  if t.OS == "windows" then s ++ ".exe" else s

/-- Outcome of one `os.Mkdir` call. -/
inductive MkdirResult where
  | ok
  | alreadyExists
  | fail (msg : String)
deriving DecidableEq, Repr

/-- The error text an `os.Mkdir` outcome carries (`os.IsExist` errors read
    `mkdir <path>: file exists`). -/
def mkdirErrMsg (path : String) : MkdirResult → Option String
  | .ok => none
  | .alreadyExists => some ("mkdir " ++ path ++ ": file exists")
  | .fail m => some m

/-- Outcome of one `cmd.Run()` of the go toolchain: its combined
    stdout/stderr (written into the shared log buffer while it runs) and
    how it ended. -/
inductive RunResult where
  | success (out : String)
  | exitErr (out : String) (msg : String)
  | otherErr (out : String)
deriving DecidableEq, Repr

/-- Environment oracle fixing the outcome of every external call the
    pipeline makes, in the order it makes them; `run i` is the outcome of
    the i-th toolchain invocation. -/
structure Env where
  mkdirCode : MkdirResult
  mkdirFiles : MkdirResult
  checkout : Option String
  reset : Option String
  configTargets : Except String String
  run : Nat → RunResult

/-- Observable actions of one pipeline run, in program order. -/
inductive Event where
  | mkdirDir (path : String)
  | gitCheckout
  | gitReset
  | gitConfig
  | invoke (cmd : String)
  | setLog (s : String)
  | removeFiles
  | setStatus (st : BuildStatus)
deriving DecidableEq, Repr

/-- The `Build` record of project.go, flattened: the owning project's name
    stands in for the `Proj` pointer. -/
structure Build where
  projName : String
  Ref : String := ""
  CodePath : String := "code"
  FilesPath : String := "files"
  status : BuildStatus := BuildNotStarted
  buildLog : String := ""
deriving DecidableEq, Repr

/-- The cgo block of project.go:232-262: map architecture and OS to the
    cross-toolchain triple, each unknown value assigning the shared `err`
    variable (without stopping the target), and emit `CC` only when both
    components resolved. -/
def cgoEnv (t : Target) (err0 : Option String) : List String × Option String :=
  let ae : String × Option String :=
    match t.Arch with
    | "" => ("", err0)
    | "amd64" => ("x86_64", err0)
    | "386" => ("x86", err0)
    | a => ("", some ("Unknown architecture " ++ goQuote a))
  let oe : String × Option String :=
    match t.OS with
    | "" => ("", ae.2)
    | "linux" => ("unknown-linux-gnu", ae.2)
    | "windows" => ("w64-mingw32", ae.2)
    | o => ("", some ("Unknown OS " ++ goQuote o))
  let cc := if ae.1 != "" && oe.1 != "" then ["CC=" ++ ae.1 ++ "-" ++ oe.1 ++ "-gcc"] else []
  (["CGO_ENABLED=1"] ++ cc, oe.2)

/-- Environment variables appended for one target (project.go:226-265),
    together with the value of the shared `err` variable afterwards. -/
def targetEnv (t : Target) (err0 : Option String) : List String × Option String :=
  let e1 := if t.OS != "" then ["GOOS=" ++ t.OS] else []
  let e2 := if t.Arch != "" then ["GOARCH=" ++ t.Arch] else []
  if t.UseCgo then
    let ce := cgoEnv t err0
    (e1 ++ e2 ++ ce.1, ce.2)
  else (e1 ++ e2 ++ ["CGO_ENABLED=0"], err0)

/-- The command line of the toolchain invocation for one target
    (project.go:220, as rendered into the log at project.go:267). -/
def cmdString (b : Build) (t : Target) : String :=
  "go build -o " ++ b.FilesPath ++ "/" ++ outfn b.projName t
    ++ " -tags " ++ String.intercalate "," t.Tags

/-- State threaded through the target loop: the shared log buffer, the
    `status` and `err` variables, the event trace so far, and the index of
    the next toolchain invocation. -/
structure LoopState where
  log : String
  status : BuildStatus
  err : Option String
  events : List Event
  runIdx : Nat
deriving Repr

/-- The `build:` loop of project.go:204-284: per target, derive the
    environment (which may set `err`), append the command line to the log,
    run the toolchain; a non-zero exit appends its diagnostic and breaks,
    any other run error breaks silently, success marks `BuildFinished` and
    continues. -/
def runTargets (env : Env) (b : Build) : List Target → LoopState → LoopState
  | [], st => st
  | t :: ts, st =>
    let err1 := (targetEnv t st.err).2
    let c := cmdString b t
    let log1 := st.log ++ c ++ "\n"
    let ev1 := st.events ++ [Event.invoke c]
    match env.run st.runIdx with
    | .success out =>
      runTargets env b ts
        { log := log1 ++ out, status := BuildFinished, err := err1,
          events := ev1, runIdx := st.runIdx + 1 }
    | .exitErr out msg =>
      { log := log1 ++ out ++ "\n" ++ msg, status := BuildFailed, err := err1,
        events := ev1, runIdx := st.runIdx + 1 }
    | .otherErr out =>
      { log := log1 ++ out, status := BuildFailed, err := err1,
        events := ev1, runIdx := st.runIdx + 1 }

/-- Result of the goroutine body (project.go:144-286) before the deferred
    finalizer runs: the `status` and `err` variables, the value of the
    `buildLog` field, and the event trace. -/
structure BodyOut where
  status : BuildStatus
  err : Option String
  logField : String
  events : List Event

/-- The goroutine body of project.go:144-286: recovery check on the two
    directories, checkout, reset, configuration read, target parsing, then
    the target loop and the single write of the `buildLog` field. -/
def pipelineBody (env : Env) (b : Build) : BodyOut :=
  let ev0 : List Event := [Event.mkdirDir b.CodePath, Event.mkdirDir b.FilesPath]
  match env.mkdirCode with
  | .alreadyExists =>
    match env.mkdirFiles with
    | .alreadyExists => { status := BuildFinished, err := none, logField := b.buildLog, events := ev0 }
    | _ => { status := BuildFailed, err := none, logField := b.buildLog, events := ev0 }
  | .fail m => { status := BuildFailed, err := some m, logField := b.buildLog, events := ev0 }
  | .ok =>
    match mkdirErrMsg b.FilesPath env.mkdirFiles with
    | some m => { status := BuildFailed, err := some m, logField := b.buildLog, events := ev0 }
    | none =>
      let ev1 := ev0 ++ [Event.gitCheckout]
      match env.checkout with
      | some m => { status := BuildFailed, err := some m, logField := b.buildLog, events := ev1 }
      | none =>
        let ev2 := ev1 ++ [Event.gitReset]
        match env.reset with
        | some m => { status := BuildFailed, err := some m, logField := b.buildLog, events := ev2 }
        | none =>
          let ev3 := ev2 ++ [Event.gitConfig]
          match env.configTargets with
          | .error m => { status := BuildFailed, err := some m, logField := b.buildLog, events := ev3 }
          | .ok targetStr =>
            match parseTargets targetStr with
            | .error m => { status := BuildFailed, err := some m, logField := b.buildLog, events := ev3 }
            | .ok targets =>
              let st := runTargets env b targets
                { log := "", status := BuildFailed, err := none, events := ev3, runIdx := 0 }
              { status := st.status, err := st.err, logField := st.log,
                events := st.events ++ [Event.setLog st.log] }

/-- One full pipeline run: the body followed by the deferred finalizer of
    project.go:133-142 — on a recorded error overwrite the log with the
    error text and force `BuildFailed`, on `BuildFailed` remove the files
    directory, and store the terminal status last. -/
def runPipeline (env : Env) (b : Build) : Build × List Event :=
  let o := pipelineBody env b
  let fin : BuildStatus × String × List Event :=
    match o.err with
    | some m => (BuildFailed, m, [Event.setLog m])
    | none => (o.status, o.logField, [])
  let ev2 := if fin.1 = BuildFailed then [Event.removeFiles] else []
  ({ b with status := fin.1, buildLog := fin.2.1 },
   o.events ++ fin.2.2 ++ ev2 ++ [Event.setStatus fin.1])

/-- The synchronous part of `StartBuild` (project.go:125-127): the
    compare-and-swap from `BuildNotStarted` to `BuildInProgress`; the
    boolean says whether the pipeline goroutine is launched. -/
def StartBuild (b : Build) : Build × Bool :=
  if b.status = BuildNotStarted then ({ b with status := BuildInProgress }, true)
  else (b, false)

/-- `StartBuild` together with the launched pipeline run to completion. -/
def StartBuildRun (env : Env) (b : Build) : Build × List Event :=
  let p := StartBuild b
  if p.2 then runPipeline env p.1 else (p.1, [])

/-- `Status()` of project.go:298-300. -/
def Status (b : Build) : BuildStatus := b.status

/-- `Log()` of project.go:302-309. -/
def Log (b : Build) : String :=
  match Status b with
  | BuildFinished => b.buildLog
  | BuildFailed => b.buildLog
  | _ => ""

/-- Environment oracle for `Ref`: the results of the two `git rev-parse`
    calls and of the best-effort `git fetch`. -/
structure RefEnv where
  revParseLen : Except String String
  fetch : Except String String
  revParseShort : Except String String

/-- External calls `Ref` can make, in order. -/
inductive RefEvent where
  | revParseLen
  | fetch
  | revParseShort
deriving DecidableEq, Repr

/-- `Ref` of project.go:72-85: resolve the reference at its own length;
    unless that reproduces the input exactly, fetch (ignoring the fetch's
    outcome); then resolve the canonical short form, whose failure is the
    only error. -/
def Ref (env : RefEnv) (ref : String) : Except String (String × Bool) × List RefEvent :=
  let first : Bool × List RefEvent :=
    match env.revParseLen with
    | .ok s =>
      if s = ref then (true, [RefEvent.revParseLen])
      else (false, [RefEvent.revParseLen, RefEvent.fetch])
    | .error _ => (false, [RefEvent.revParseLen, RefEvent.fetch])
  match env.revParseShort with
  | .ok s => (.ok (s, first.1), first.2 ++ [RefEvent.revParseShort])
  | .error e => (.error e, first.2 ++ [RefEvent.revParseShort])

/-- `sub` occurs as a contiguous substring of `s`. -/
def ContainsStr (s sub : String) : Prop := ∃ pre post, s = pre ++ sub ++ post

/-- Command lines of the toolchain invocations recorded in a trace. -/
def invokedCmds (evs : List Event) : List String :=
  evs.filterMap (fun e => match e with | Event.invoke c => some c | _ => none)

/-- What one toolchain invocation writes to the shared log buffer after its
    command line: its combined output, and for a non-zero exit an extra
    newline and the exit diagnostic (project.go:270-276). -/
def runOut : RunResult → String
  | .success out => out
  | .exitErr out msg => out ++ "\n" ++ msg
  | .otherErr out => out

/-- What one toolchain invocation contributes to the shared log buffer:
    the command line, a newline, then its combined output and diagnostic
    (project.go:267-276). -/
def runLogEntry (c : String) (r : RunResult) : String := c ++ "\n" ++ runOut r

/-- The log accumulated by running the given command lines starting at the
    given invocation index. -/
def logEntries (run : Nat → RunResult) : List String → Nat → String
  | [], _ => ""
  | c :: cs, i => runLogEntry c (run i) ++ logEntries run cs (i + 1)

/-- The shared `err` variable after the environment derivation of every
    target in the list has run (project.go:232-265 per target). -/
def errAfterTargets (ts : List Target) (e0 : Option String) : Option String :=
  ts.foldl (fun e t => (targetEnv t e).2) e0

/-- Taken from the spec's words, for comparison with the code's parser: a
    full-string match of the descriptor grammar `OS:ARCH` optionally
    followed by a parenthesized comma-separated tag list — the tail of the
    tag list, expecting `)` at the very end or `,` and a further tag. -/
def specTagsRest (fuel : Nat) (cs : List Char) : Bool :=
  match fuel with
  | 0 => false
  | fuel + 1 =>
    match cs with
    | [')'] => true
    | ',' :: r =>
      match takeWordRun r with
      | ([], _) => false
      | (_ :: _, r1) => specTagsRest fuel r1
    | _ => false

/-- Taken from the spec's words: the parenthesized tag list after `(`,
    one tag then `specTagsRest`. -/
def specTagsEnd (cs : List Char) : Bool :=
  match takeWordRun cs with
  | ([], _) => false
  | (_ :: _, r1) => specTagsRest (r1.length + 1) r1

/-- Taken from the spec's words (§4.6): the whole descriptor string
    matches `OS:ARCH` optionally followed by `(tag,...)`, with nothing
    before or after. -/
def matchesSpecGrammar (s : String) : Bool :=
  match takeWordRun s.toList with
  | ([], _) => false
  | (_ :: _, ':' :: r2) =>
    match takeWordRun r2 with
    | ([], _) => false
    | (_ :: _, []) => true
    | (_ :: _, '(' :: r3) => specTagsEnd r3
    | _ => false
  | _ => false

/-- Concrete builds and environments used by the witness theorems. -/
def bNS : Build :=
  { projName := "demo", Ref := "abc1234",
    CodePath := "/p/goci/abc1234/code", FilesPath := "/p/goci/abc1234/files" }

def bFin : Build := { bNS with status := BuildFinished, buildLog := "old log" }

def envOk : Env :=
  { mkdirCode := .ok, mkdirFiles := .ok, checkout := none, reset := none,
    configTargets := .ok "", run := fun _ => .success "" }

def envRecov : Env := { envOk with mkdirCode := .alreadyExists, mkdirFiles := .alreadyExists }

def envBogus : Env := { envOk with configTargets := .ok "bogus" }

def envExit : Env :=
  { envOk with
    configTargets := .ok "linux:amd64"
    run := fun _ => .exitErr "compile error\n" "exit status 1" }

def envCgoBad : Env :=
  { envOk with
    configTargets := .ok "linux:arm64(cgo) linux:amd64"
    run := fun _ => .success "done\n" }

def envCgoBadExit : Env :=
  { envOk with
    configTargets := .ok "linux:arm64(cgo) linux:amd64"
    run := fun i => if i = 0 then .exitErr "cc missing\n" "exit status 1" else .success "" }

def envRef : RefEnv :=
  { revParseLen := .ok "abc", fetch := .ok "", revParseShort := .ok "abc" }

def bIP : Build := { bNS with status := BuildInProgress }

/-- Events the goroutine body may emit — everything except the finalizer's
    `removeFiles` and `setStatus`. -/
def isBodyAction : Event → Bool
  | .setStatus _ => false
  | .removeFiles => false
  | _ => true

end Goci

namespace Goci

open BuildStatus

theorem not_containsStr_of_length (s sub : String) (h : s.length < sub.length) :
    ¬ ContainsStr s sub := by
  rintro ⟨pre, post, rfl⟩
  simp [String.length_append] at h
  omega

/-- C1: calling `StartBuild()` on a build whose status is not `NotStarted`
    is a no-op — no pipeline is launched and the build's status and log are
    unchanged; only on a `NotStarted` build does the compare-and-swap fire
    and move the status to `InProgress`. -/
theorem C1_startBuild_exactly_once (env : Env) (b : Build) :
    (b.status ≠ BuildNotStarted →
      StartBuildRun env b = (b, []) ∧ (StartBuild b).2 = false) ∧
    (b.status = BuildNotStarted →
      StartBuild b = ({ b with status := BuildInProgress }, true)) := by
  constructor
  · intro h
    simp [StartBuildRun, StartBuild, h]
  · intro h
    simp [StartBuild, h]

theorem C1_witness :
    StartBuildRun envOk bFin = (bFin, []) ∧ (StartBuild bFin).2 = false :=
  (C1_startBuild_exactly_once envOk bFin).1 (by decide)

/-- C4 counterexample: the code's parser applied to the claim's descriptor
    `linux:amd64(native-interop,prod)`: the hyphen in `native-interop` is
    not a word character, so the unanchored regexp matches only
    `linux:amd64` with an empty tag group, giving a target whose
    native-interop flag (`UseCgo`) is false and whose tag list is the single
    empty tag, not `["prod"]`. -/
theorem C4_counterexample :
    parseTargets "linux:amd64(native-interop,prod)" =
      .ok [{ OS := "linux", Arch := "amd64", UseCgo := false, Tags := [""] }] := by
  decide

/-- C4 (amended): the literal tag that sets the native-interop flag is
    `cgo`: parsing `linux:amd64(cgo,prod)` yields exactly one target with
    OS `linux`, architecture `amd64`, the flag set, and ordinary tag list
    `["prod"]` — `cgo` itself is excluded from the tag list. -/
theorem C4_parse_cgo_descriptor :
    parseTargets "linux:amd64(cgo,prod)" =
      .ok [{ OS := "linux", Arch := "amd64", UseCgo := true, Tags := ["prod"] }] := by
  decide

/-- C5: code behavior at the claim's input — project `demo` with
    configuration `linux:amd64 windows:amd64`.  Each descriptor's absent
    tag group is the empty submatch, Go's `strings.Split` turns it into one
    empty tag, so the tag-list guard fires and the artifact names carry a
    trailing dash: `demo-linux-amd64-` and `demo-windows-amd64-.exe`,
    against the claimed `demo-linux-amd64` and `demo-windows-amd64.exe`
    (the `.exe` suffix itself is appended exactly for OS `windows`). -/
theorem C5_artifact_names_code_behavior :
    (parseTargets "linux:amd64 windows:amd64").map (fun ts => ts.map (outfn "demo")) =
      .ok ["demo-linux-amd64-", "demo-windows-amd64-.exe"] := by
  decide

/-- C6: a reference the backend resolves, at its own length, to exactly the
    input performs no fetch and is reported immutable; any other reference
    triggers exactly one fetch; the fetch's outcome never influences the
    result; and a resolution error is returned exactly when the final
    canonical short-form lookup fails. -/
theorem C6_ref_resolution (env : RefEnv) (ref : String) :
    (env.revParseLen = .ok ref →
      (Ref env ref).2 = [RefEvent.revParseLen, RefEvent.revParseShort] ∧
      ∀ s hash, (Ref env ref).1 = .ok (s, hash) → hash = true) ∧
    (env.revParseLen ≠ .ok ref →
      (Ref env ref).2 = [RefEvent.revParseLen, RefEvent.fetch, RefEvent.revParseShort]) ∧
    (∀ f, Ref { env with fetch := f } ref = Ref env ref) ∧
    ((∃ e, (Ref env ref).1 = .error e) ↔ ∃ e, env.revParseShort = .error e) := by
  obtain ⟨rpl, fe, rps⟩ := env
  refine ⟨?_, ?_, ?_, ?_⟩
  · intro h
    simp only at h
    subst h
    cases rps <;> simp [Ref]
  · intro h
    simp only at h
    cases rpl with
    | error e => cases rps <;> simp [Ref]
    | ok s =>
      have hs : s ≠ ref := fun hh => h (by rw [hh])
      cases rps <;> simp [Ref, hs]
  · intro f
    rfl
  · cases rpl with
    | error e => cases rps <;> simp [Ref]
    | ok s =>
      by_cases hsr : s = ref <;> cases rps <;> simp [Ref, hsr]

theorem C6_witness :
    (Ref envRef "abc").2 = [RefEvent.revParseLen, RefEvent.revParseShort] :=
  (((C6_ref_resolution envRef "abc").1) (by decide)).1

/-- The target loop appends exactly one invocation event per toolchain run
    and grows the shared log by the corresponding log entries, in order. -/
theorem runTargets_spec (env : Env) (b : Build) (ts : List Target) (st : LoopState) :
    ∃ cmds : List String,
      (runTargets env b ts st).events = st.events ++ cmds.map Event.invoke ∧
      (runTargets env b ts st).log = st.log ++ logEntries env.run cmds st.runIdx := by
  induction ts generalizing st with
  | nil => exact ⟨[], by simp [runTargets, logEntries]⟩
  | cons t ts ih =>
    cases hr : env.run st.runIdx with
    | success out =>
      obtain ⟨cmds, hev, hlog⟩ := ih
        ⟨st.log ++ cmdString b t ++ "\n" ++ out, BuildFinished, (targetEnv t st.err).2,
          st.events ++ [Event.invoke (cmdString b t)], st.runIdx + 1⟩
      refine ⟨cmdString b t :: cmds, ?_, ?_⟩
      · simp only [runTargets, hr]
        rw [hev]
        simp
      · simp only [runTargets, hr]
        rw [hlog]
        simp [logEntries, runLogEntry, runOut, hr, String.append_assoc]
    | exitErr out msg =>
      refine ⟨[cmdString b t], ?_, ?_⟩
      · simp [runTargets, hr]
      · simp only [runTargets, hr]
        simp [logEntries, runLogEntry, runOut, hr, String.append_assoc]
    | otherErr out =>
      refine ⟨[cmdString b t], ?_, ?_⟩
      · simp [runTargets, hr]
      · simp only [runTargets, hr]
        simp [logEntries, runLogEntry, runOut, hr, String.append_assoc]

/-- The target loop leaves the status terminal if it starts terminal (it is
    initialized to `BuildFailed` at project.go:131). -/
theorem runTargets_status_terminal (env : Env) (b : Build) (ts : List Target) (st : LoopState)
    (h : st.status = BuildFinished ∨ st.status = BuildFailed) :
    (runTargets env b ts st).status = BuildFinished ∨
    (runTargets env b ts st).status = BuildFailed := by
  induction ts generalizing st with
  | nil => simpa [runTargets] using h
  | cons t ts ih =>
    cases hr : env.run st.runIdx with
    | success out =>
      simp only [runTargets, hr]
      exact ih _ (Or.inl rfl)
    | exitErr out msg => simp [runTargets, hr]
    | otherErr out => simp [runTargets, hr]

/-- Every event the goroutine body emits is a body action: the finalizer's
    `removeFiles` and `setStatus` never appear in the body's trace. -/
theorem pipelineBody_events_actions (env : Env) (b : Build) :
    ∀ e ∈ (pipelineBody env b).events, isBodyAction e = true := by
  intro e he
  cases hc : env.mkdirCode with
  | alreadyExists =>
    cases hf : env.mkdirFiles <;>
      simp [pipelineBody, hc, hf] at he <;>
      rcases he with rfl | rfl <;> rfl
  | fail m =>
    simp [pipelineBody, hc] at he
    rcases he with rfl | rfl <;> rfl
  | ok =>
    cases hf : env.mkdirFiles with
    | alreadyExists =>
      simp [pipelineBody, hc, hf, mkdirErrMsg] at he
      rcases he with rfl | rfl <;> rfl
    | fail m =>
      simp [pipelineBody, hc, hf, mkdirErrMsg] at he
      rcases he with rfl | rfl <;> rfl
    | ok =>
      cases hco : env.checkout with
      | some m =>
        simp [pipelineBody, hc, hf, mkdirErrMsg, hco] at he
        rcases he with rfl | rfl | rfl <;> rfl
      | none =>
        cases hre : env.reset with
        | some m =>
          simp [pipelineBody, hc, hf, mkdirErrMsg, hco, hre] at he
          rcases he with rfl | rfl | rfl | rfl <;> rfl
        | none =>
          cases hcfg : env.configTargets with
          | error m =>
            simp [pipelineBody, hc, hf, mkdirErrMsg, hco, hre, hcfg] at he
            rcases he with rfl | rfl | rfl | rfl | rfl <;> rfl
          | ok targetStr =>
            cases hp : parseTargets targetStr with
            | error m =>
              simp [pipelineBody, hc, hf, mkdirErrMsg, hco, hre, hcfg, hp] at he
              rcases he with rfl | rfl | rfl | rfl | rfl <;> rfl
            | ok targets =>
              obtain ⟨cmds, hev, _⟩ := runTargets_spec env b targets
                ⟨"", BuildFailed, none,
                  [Event.mkdirDir b.CodePath, Event.mkdirDir b.FilesPath,
                   Event.gitCheckout, Event.gitReset, Event.gitConfig], 0⟩
              simp [pipelineBody, hc, hf, mkdirErrMsg, hco, hre, hcfg, hp, hev] at he
              rcases he with rfl | rfl | rfl | rfl | rfl | ⟨c, _, rfl⟩ | rfl <;> rfl

/-- The goroutine body always reports a terminal status. -/
theorem pipelineBody_status_terminal (env : Env) (b : Build) :
    (pipelineBody env b).status = BuildFinished ∨
    (pipelineBody env b).status = BuildFailed := by
  cases hc : env.mkdirCode with
  | alreadyExists => cases hf : env.mkdirFiles <;> simp [pipelineBody, hc, hf]
  | fail m => simp [pipelineBody, hc]
  | ok =>
    cases hf : env.mkdirFiles with
    | alreadyExists => simp [pipelineBody, hc, hf, mkdirErrMsg]
    | fail m => simp [pipelineBody, hc, hf, mkdirErrMsg]
    | ok =>
      cases hco : env.checkout with
      | some m => simp [pipelineBody, hc, hf, mkdirErrMsg, hco]
      | none =>
        cases hre : env.reset with
        | some m => simp [pipelineBody, hc, hf, mkdirErrMsg, hco, hre]
        | none =>
          cases hcfg : env.configTargets with
          | error m => simp [pipelineBody, hc, hf, mkdirErrMsg, hco, hre, hcfg]
          | ok targetStr =>
            cases hp : parseTargets targetStr with
            | error m => simp [pipelineBody, hc, hf, mkdirErrMsg, hco, hre, hcfg, hp]
            | ok targets =>
              have := runTargets_status_terminal env b targets
                ⟨"", BuildFailed, none,
                  [Event.mkdirDir b.CodePath, Event.mkdirDir b.FilesPath,
                   Event.gitCheckout, Event.gitReset, Event.gitConfig], 0⟩
                (Or.inr rfl)
              simpa [pipelineBody, hc, hf, mkdirErrMsg, hco, hre, hcfg, hp] using this

/-- C2: with both working directories already present when the build is
    started, the pipeline resolves to `Finished`; with the code directory
    present but the files directory absent it resolves to `Failed`; in
    either case no checkout and no toolchain invocation appears in the
    trace. -/
theorem C2_recovery_check (env : Env) (b : Build)
    (hs : b.status = BuildNotStarted) (hc : env.mkdirCode = .alreadyExists) :
    (env.mkdirFiles = .alreadyExists → (StartBuildRun env b).1.status = BuildFinished) ∧
    (env.mkdirFiles ≠ .alreadyExists → (StartBuildRun env b).1.status = BuildFailed) ∧
    ∀ e ∈ (StartBuildRun env b).2, e ≠ Event.gitCheckout ∧ ∀ c, e ≠ Event.invoke c := by
  refine ⟨?_, ?_, ?_⟩
  · intro hf
    simp [StartBuildRun, StartBuild, hs, runPipeline, pipelineBody, hc, hf]
  · intro hf
    cases hfi : env.mkdirFiles with
    | alreadyExists => exact absurd hfi hf
    | ok => simp [StartBuildRun, StartBuild, hs, runPipeline, pipelineBody, hc, hfi]
    | fail m => simp [StartBuildRun, StartBuild, hs, runPipeline, pipelineBody, hc, hfi]
  · intro e he
    cases hfi : env.mkdirFiles <;>
      simp [StartBuildRun, StartBuild, hs, runPipeline, pipelineBody, hc, hfi] at he <;>
      rcases he with rfl | rfl | rfl | rfl <;> simp

theorem C2_witness :
    (StartBuildRun envRecov bNS).1.status = BuildFinished :=
  (C2_recovery_check envRecov bNS (by decide) (by decide)).1 (by decide)

/-- C3: `Log()` is empty in the non-terminal states, and the pipeline's
    trace ends with the single store of the terminal status — every log
    write (and everything else) happens before it, so a reader that
    observes a terminal status sees the completed log, which `Log()` then
    returns. -/
theorem C3_log_gating_and_write_order (b b2 : Build) (env : Env) :
    ((Status b = BuildNotStarted ∨ Status b = BuildInProgress) → Log b = "") ∧
    ∃ pre, (runPipeline env b2).2 = pre ++ [Event.setStatus (runPipeline env b2).1.status] ∧
      (∀ e ∈ pre, ∀ st, e ≠ Event.setStatus st) ∧
      ((runPipeline env b2).1.status = BuildFinished ∨
        (runPipeline env b2).1.status = BuildFailed) ∧
      Log (runPipeline env b2).1 = (runPipeline env b2).1.buildLog := by
  constructor
  · rintro (h | h) <;> simp [Log, Status] at h ⊢ <;> simp [h]
  · have hterm := pipelineBody_status_terminal env b2
    have hact := pipelineBody_events_actions env b2
    cases he : (pipelineBody env b2).err with
    | some m =>
      refine ⟨(pipelineBody env b2).events ++ [Event.setLog m] ++ [Event.removeFiles],
        ?_, ?_, ?_, ?_⟩
      · simp [runPipeline, he]
      · intro e hee st
        simp at hee
        rcases hee with hee | rfl | rfl
        · have := hact e hee
          intro hh
          rw [hh] at this
          simp [isBodyAction] at this
        · simp
        · simp
      · simp [runPipeline, he]
      · simp [runPipeline, he, Log, Status]
    | none =>
      rcases hterm with ht | ht
      · refine ⟨(pipelineBody env b2).events, ?_, ?_, ?_, ?_⟩
        · simp [runPipeline, he, ht]
        · intro e hee st
          have := hact e hee
          intro hh
          rw [hh] at this
          simp [isBodyAction] at this
        · simp [runPipeline, he, ht]
        · simp [runPipeline, he, ht, Log, Status]
      · refine ⟨(pipelineBody env b2).events ++ [Event.removeFiles], ?_, ?_, ?_, ?_⟩
        · simp [runPipeline, he, ht]
        · intro e hee st
          simp at hee
          rcases hee with hee | rfl
          · have := hact e hee
            intro hh
            rw [hh] at this
            simp [isBodyAction] at this
          · simp
        · simp [runPipeline, he, ht]
        · simp [runPipeline, he, ht, Log, Status]

theorem C3_witness : Log bIP = "" :=
  (C3_log_gating_and_write_order bIP bIP envOk).1 (Or.inr (by decide))

/-- C7: whenever the pipeline ends `Failed` — whatever the path — the
    trace removes the files directory, and the removal happens strictly
    before the terminal status is stored. -/
theorem C7_failed_removes_files (env : Env) (b : Build)
    (h : (runPipeline env b).1.status = BuildFailed) :
    ∃ pre, (runPipeline env b).2 = pre ++ [Event.setStatus BuildFailed] ∧
      Event.removeFiles ∈ pre := by
  cases he : (pipelineBody env b).err with
  | some m =>
    refine ⟨(pipelineBody env b).events ++ [Event.setLog m] ++ [Event.removeFiles], ?_, by simp⟩
    simp [runPipeline, he]
  | none =>
    have hfail : (pipelineBody env b).status = BuildFailed := by
      simpa [runPipeline, he] using h
    refine ⟨(pipelineBody env b).events ++ [Event.removeFiles], ?_, by simp⟩
    simp [runPipeline, he, hfail]

theorem C7_witness :
    ∃ pre, (runPipeline envBogus bIP).2 = pre ++ [Event.setStatus BuildFailed] ∧
      Event.removeFiles ∈ pre :=
  C7_failed_removes_files envBogus bIP (by decide)

theorem invokedCmds_append (l1 l2 : List Event) :
    invokedCmds (l1 ++ l2) = invokedCmds l1 ++ invokedCmds l2 := by
  simp [invokedCmds]

theorem invokedCmds_nil : invokedCmds [] = [] := rfl

theorem invokedCmds_mkdirDir (p : String) (l : List Event) :
    invokedCmds (Event.mkdirDir p :: l) = invokedCmds l := rfl

theorem invokedCmds_gitCheckout (l : List Event) :
    invokedCmds (Event.gitCheckout :: l) = invokedCmds l := rfl

theorem invokedCmds_gitReset (l : List Event) :
    invokedCmds (Event.gitReset :: l) = invokedCmds l := rfl

theorem invokedCmds_gitConfig (l : List Event) :
    invokedCmds (Event.gitConfig :: l) = invokedCmds l := rfl

theorem invokedCmds_setLog (s : String) (l : List Event) :
    invokedCmds (Event.setLog s :: l) = invokedCmds l := rfl

theorem invokedCmds_invoke (c : String) (l : List Event) :
    invokedCmds (Event.invoke c :: l) = c :: invokedCmds l := rfl

theorem invokedCmds_map_invoke {α : Type} (f : α → String) (l : List α) :
    invokedCmds (l.map (fun t => Event.invoke (f t))) = l.map f := by
  induction l with
  | nil => rfl
  | cons x xs ih => rw [List.map_cons, invokedCmds_invoke, ih, List.map_cons]

theorem invokedCmds_map_invoke_plain (l : List String) :
    invokedCmds (l.map Event.invoke) = l := by
  induction l with
  | nil => rfl
  | cons x xs ih => rw [List.map_cons, invokedCmds_invoke, ih]

/-- The loop state at entry to the target loop (project.go:203-204): empty
    buffer, `status` initialized to `BuildFailed`, no error, the setup
    events already traced, next invocation index 0. -/
def initLoopState (b : Build) : LoopState :=
  ⟨"", BuildFailed, none,
    [Event.mkdirDir b.CodePath, Event.mkdirDir b.FilesPath,
     Event.gitCheckout, Event.gitReset, Event.gitConfig], 0⟩

/-- When every setup step succeeds and the configuration parses, the body
    is exactly the target loop's outcome followed by the log-field write. -/
theorem pipelineBody_loop (env : Env) (b : Build) (targetStr : String) (targets : List Target)
    (hc : env.mkdirCode = .ok) (hf : env.mkdirFiles = .ok)
    (hco : env.checkout = none) (hre : env.reset = none)
    (hcfg : env.configTargets = .ok targetStr)
    (hp : parseTargets targetStr = .ok targets) :
    pipelineBody env b =
      { status := (runTargets env b targets (initLoopState b)).status,
        err := (runTargets env b targets (initLoopState b)).err,
        logField := (runTargets env b targets (initLoopState b)).log,
        events := (runTargets env b targets (initLoopState b)).events ++
          [Event.setLog (runTargets env b targets (initLoopState b)).log] } := by
  simp [pipelineBody, hc, hf, mkdirErrMsg, hco, hre, hcfg, hp, initLoopState]

theorem containsStr_logEntries (run : Nat → RunResult) (cmds : List String) (i : Nat)
    (c : String) (h : c ∈ cmds) : ContainsStr (logEntries run cmds i) c := by
  induction cmds generalizing i with
  | nil => cases h
  | cons d ds ih =>
    rcases List.mem_cons.mp h with rfl | h
    · exact ⟨"", "\n" ++ runOut (run i) ++ logEntries run ds (i + 1),
        by simp [logEntries, runLogEntry, String.append_assoc]⟩
    · obtain ⟨pre, post, hp⟩ := ih i.succ h
      exact ⟨runLogEntry d (run i) ++ pre, post,
        by rw [logEntries, hp]; simp [String.append_assoc]⟩

/-- When the body records no error but at least one toolchain invocation
    happened, the `buildLog` field holds exactly the concatenated log
    entries of the invocations in the trace, starting at invocation 0. -/
theorem pipelineBody_err_none_log (env : Env) (b : Build)
    (h2 : (pipelineBody env b).err = none)
    (h3 : invokedCmds (pipelineBody env b).events ≠ []) :
    (pipelineBody env b).logField =
      logEntries env.run (invokedCmds (pipelineBody env b).events) 0 := by
  cases hc : env.mkdirCode with
  | alreadyExists =>
    cases hf : env.mkdirFiles <;>
      simp [pipelineBody, hc, hf, invokedCmds] at h3
  | fail m => simp [pipelineBody, hc] at h2
  | ok =>
    cases hf : env.mkdirFiles with
    | alreadyExists => simp [pipelineBody, hc, hf, mkdirErrMsg] at h2
    | fail m => simp [pipelineBody, hc, hf, mkdirErrMsg] at h2
    | ok =>
      cases hco : env.checkout with
      | some m => simp [pipelineBody, hc, hf, mkdirErrMsg, hco] at h2
      | none =>
        cases hre : env.reset with
        | some m => simp [pipelineBody, hc, hf, mkdirErrMsg, hco, hre] at h2
        | none =>
          cases hcfg : env.configTargets with
          | error m => simp [pipelineBody, hc, hf, mkdirErrMsg, hco, hre, hcfg] at h2
          | ok targetStr =>
            cases hp : parseTargets targetStr with
            | error m =>
              simp [pipelineBody, hc, hf, mkdirErrMsg, hco, hre, hcfg, hp] at h2
            | ok targets =>
              obtain ⟨cmds, hev, hlog⟩ := runTargets_spec env b targets (initLoopState b)
              rw [pipelineBody_loop env b targetStr targets hc hf hco hre hcfg hp]
              simp only [hev, hlog]
              rw [invokedCmds_append, invokedCmds_append]
              simp [initLoopState, invokedCmds_nil, invokedCmds_mkdirDir,
                invokedCmds_gitCheckout, invokedCmds_gitReset, invokedCmds_gitConfig,
                invokedCmds_setLog, invokedCmds_map_invoke_plain]

/-- The finalizer adds no invocation events, so the commands invoked in the
    full trace are those invoked by the body. -/
theorem invokedCmds_runPipeline (env : Env) (b : Build) :
    invokedCmds (runPipeline env b).2 = invokedCmds (pipelineBody env b).events := by
  cases he : (pipelineBody env b).err with
  | some m =>
    simp only [runPipeline, he]
    by_cases hst : BuildFailed = BuildFailed <;>
      simp [invokedCmds_append, invokedCmds]
  | none =>
    simp only [runPipeline, he]
    rcases pipelineBody_status_terminal env b with ht | ht <;>
      simp [ht, invokedCmds_append, invokedCmds]

/-- C8 counterexample to the claim as stated: one target `linux:arm64(cgo)`
    whose architecture is missing from the interop lookup table.  Its
    toolchain invocation is run (and succeeds), the build ends `Failed`,
    but the log was replaced by the unknown-architecture error text, so it
    does not contain the command line of the invocation that ran. -/
theorem C8_counterexample :
    (runPipeline envCgoBad bIP).1.status = BuildFailed ∧
    "go build -o /p/goci/abc1234/files/demo-linux-arm64 -tags " ∈
      invokedCmds (runPipeline envCgoBad bIP).2 ∧
    ¬ ContainsStr (Log (runPipeline envCgoBad bIP).1)
      "go build -o /p/goci/abc1234/files/demo-linux-arm64 -tags " :=
  ⟨by decide, by decide,
    not_containsStr_of_length _ _ (by decide)⟩

/-- C8 (amended): whenever the build ends `Failed` with no error recorded
    in the shared `err` variable (so the failure came from a toolchain
    invocation, not from a configuration/setup error) and at least one
    invocation was started, `Log()` returns exactly the concatenation, in
    matrix order, of each invocation's command line followed by that
    invocation's combined output — in particular the log contains the
    exact command line of every invocation that was run. -/
theorem C8_failed_log_reconstructs (env : Env) (b : Build)
    (h1 : (runPipeline env b).1.status = BuildFailed)
    (h2 : (pipelineBody env b).err = none)
    (h3 : invokedCmds (runPipeline env b).2 ≠ []) :
    Log (runPipeline env b).1 =
      logEntries env.run (invokedCmds (runPipeline env b).2) 0 ∧
    ∀ c ∈ invokedCmds (runPipeline env b).2,
      ContainsStr (Log (runPipeline env b).1) c := by
  have hinv := invokedCmds_runPipeline env b
  rw [hinv] at h3
  have hlogf := pipelineBody_err_none_log env b h2 h3
  have hfail : (pipelineBody env b).status = BuildFailed := by
    simpa [runPipeline, h2] using h1
  have hlog : Log (runPipeline env b).1 =
      logEntries env.run (invokedCmds (runPipeline env b).2) 0 := by
    rw [hinv]
    simp [runPipeline, h2, hfail, Log, Status, hlogf]
  refine ⟨hlog, ?_⟩
  intro c hcmem
  rw [hlog]
  exact containsStr_logEntries env.run _ 0 c hcmem

theorem C8_witness :
    Log (runPipeline envExit bIP).1 =
      logEntries envExit.run (invokedCmds (runPipeline envExit bIP).2) 0 ∧
    ∀ c ∈ invokedCmds (runPipeline envExit bIP).2,
      ContainsStr (Log (runPipeline envExit bIP).1) c :=
  C8_failed_log_reconstructs envExit bIP (by decide) (by decide) (by decide)

/-- C9 counterexample to the claim as stated: the descriptor
    `linux:amd64(` does not match the `OS:ARCH(tag,...)` grammar
    (dangling parenthesis), yet it is not a parse error — the unanchored
    regexp finds the `linux:amd64` core and the configuration is accepted. -/
theorem C9_counterexample :
    matchesSpecGrammar "linux:amd64(" = false ∧
    parseTargets "linux:amd64(" =
      .ok [{ OS := "linux", Arch := "amd64", UseCgo := false, Tags := [""] }] := by
  constructor <;> decide

/-- C9 (amended): a space-separated descriptor in which the regexp finds no
    match at all is a hard parse error: the build ends `Failed`, the log is
    exactly the error text naming the offending token, and no toolchain
    invocation happens; in particular `bogus` (no colon) produces the
    error `Invalid target "bogus"`, whose text contains the token. -/
theorem C9_invalid_descriptor_fails (env : Env) (b : Build) (cfg m : String)
    (hs : b.status = BuildNotStarted)
    (hc : env.mkdirCode = .ok) (hf : env.mkdirFiles = .ok)
    (hco : env.checkout = none) (hre : env.reset = none)
    (hcfg : env.configTargets = .ok cfg)
    (hp : parseTargets cfg = .error m) :
    ((StartBuildRun env b).1.status = BuildFailed ∧
      Log (StartBuildRun env b).1 = m ∧
      invokedCmds (StartBuildRun env b).2 = []) ∧
    (parseTargets "bogus" = .error ("Invalid target " ++ goQuote "bogus") ∧
      ContainsStr ("Invalid target " ++ goQuote "bogus") "bogus") := by
  refine ⟨⟨?_, ?_, ?_⟩, by decide, ⟨"Invalid target \"", "\"", by decide⟩⟩
  · simp [StartBuildRun, StartBuild, hs, runPipeline, pipelineBody, hc, hf,
      mkdirErrMsg, hco, hre, hcfg, hp]
  · simp [StartBuildRun, StartBuild, hs, runPipeline, pipelineBody, hc, hf,
      mkdirErrMsg, hco, hre, hcfg, hp, Log, Status]
  · simp [StartBuildRun, StartBuild, hs, runPipeline, pipelineBody, hc, hf,
      mkdirErrMsg, hco, hre, hcfg, hp, invokedCmds]

theorem C9_witness :
    ((StartBuildRun envBogus bNS).1.status = BuildFailed ∧
      Log (StartBuildRun envBogus bNS).1 = "Invalid target \"bogus\"" ∧
      invokedCmds (StartBuildRun envBogus bNS).2 = []) ∧
    (parseTargets "bogus" = .error ("Invalid target " ++ goQuote "bogus") ∧
      ContainsStr ("Invalid target " ++ goQuote "bogus") "bogus") :=
  C9_invalid_descriptor_fails envBogus bNS "bogus" "Invalid target \"bogus\""
    (by decide) (by decide) (by decide) (by decide) (by decide) (by decide) (by decide)

/-- The target loop when every toolchain invocation it reaches succeeds:
    one invocation event per target in order, the shared `err` variable
    ends as the fold of the per-target environment derivations, and the
    status ends `BuildFinished` for a non-empty matrix. -/
theorem runTargets_all_success (env : Env) (b : Build) (ts : List Target) (st : LoopState)
    (h : ∀ i, i < ts.length → ∃ out, env.run (st.runIdx + i) = .success out) :
    (runTargets env b ts st).err = errAfterTargets ts st.err ∧
    (runTargets env b ts st).events =
      st.events ++ ts.map (fun t => Event.invoke (cmdString b t)) ∧
    (ts = [] → runTargets env b ts st = st) ∧
    (ts ≠ [] → (runTargets env b ts st).status = BuildFinished) := by
  induction ts generalizing st with
  | nil => simp [runTargets, errAfterTargets]
  | cons t ts ih =>
    obtain ⟨out, hr⟩ := h 0 (by simp)
    rw [Nat.add_zero] at hr
    have ih' := ih
      ⟨st.log ++ cmdString b t ++ "\n" ++ out, BuildFinished, (targetEnv t st.err).2,
        st.events ++ [Event.invoke (cmdString b t)], st.runIdx + 1⟩
      (by
        intro i hi
        obtain ⟨o2, h2⟩ := h (i + 1) (by simpa using Nat.succ_lt_succ hi)
        exact ⟨o2, by rwa [show st.runIdx + (i + 1) = st.runIdx + 1 + i by omega] at h2⟩)
    obtain ⟨ihe, ihv, ihnil, ihne⟩ := ih'
    refine ⟨?_, ?_, ?_, ?_⟩
    · simp only [runTargets, hr]
      rw [ihe]
      simp [errAfterTargets]
    · simp only [runTargets, hr]
      rw [ihv]
      simp
    · intro hh
      exact absurd hh (List.cons_ne_nil t ts)
    · intro _
      simp only [runTargets, hr]
      cases ts with
      | nil => rw [ihnil rfl]
      | cons t2 ts2 => exact ihne (List.cons_ne_nil t2 ts2)

/-- C10 counterexample to the claim as stated: matrix
    `linux:arm64(cgo) linux:amd64` — the first target has the interop flag
    with an architecture missing from the lookup table, and its own
    invocation exits non-zero.  The loop then short-circuits: only one
    invocation happens although a second target remains. -/
theorem C10_counterexample :
    parseTargets "linux:arm64(cgo) linux:amd64" =
      .ok [{ OS := "linux", Arch := "arm64", UseCgo := true, Tags := [] },
           { OS := "linux", Arch := "amd64", UseCgo := false, Tags := [""] }] ∧
    (invokedCmds (runPipeline envCgoBadExit bIP).2).length = 1 ∧
    (runPipeline envCgoBadExit bIP).1.status = BuildFailed := by
  refine ⟨by decide, by decide, by decide⟩

/-- C10 (amended): a target with the interop flag but an OS or architecture
    outside the fixed lookup table is not skipped — its toolchain
    invocation still runs, and as long as the invocations keep succeeding
    every remaining target is invoked too; when the loop ends the recorded
    lookup error forces the status to `Failed` and the log is replaced by
    the unknown-OS/unknown-architecture error text instead of the
    accumulated command log. -/
theorem C10_cgo_unknown_no_skip (env : Env) (b : Build) (cfg m : String) (ts : List Target)
    (hc : env.mkdirCode = .ok) (hf : env.mkdirFiles = .ok)
    (hco : env.checkout = none) (hre : env.reset = none)
    (hcfg : env.configTargets = .ok cfg)
    (hp : parseTargets cfg = .ok ts)
    (hrun : ∀ i, i < ts.length → ∃ out, env.run i = .success out)
    (herr : errAfterTargets ts none = some m) :
    invokedCmds (runPipeline env b).2 = ts.map (cmdString b) ∧
    (runPipeline env b).1.status = BuildFailed ∧
    Log (runPipeline env b).1 = m := by
  obtain ⟨he, hv, -, -⟩ := runTargets_all_success env b ts (initLoopState b)
    (by simpa [initLoopState] using hrun)
  have hloop := pipelineBody_loop env b cfg ts hc hf hco hre hcfg hp
  have hbe : (pipelineBody env b).err = some m := by
    rw [hloop]
    show (runTargets env b ts (initLoopState b)).err = some m
    rw [he]
    simpa [initLoopState] using herr
  have hbinv : invokedCmds (pipelineBody env b).events = ts.map (cmdString b) := by
    rw [hloop]
    simp only [hv]
    rw [invokedCmds_append, invokedCmds_append]
    simp [initLoopState, invokedCmds_nil, invokedCmds_mkdirDir,
      invokedCmds_gitCheckout, invokedCmds_gitReset, invokedCmds_gitConfig,
      invokedCmds_setLog, invokedCmds_map_invoke]
  refine ⟨?_, ?_, ?_⟩
  · rw [invokedCmds_runPipeline env b, hbinv]
  · simp [runPipeline, hbe]
  · simp [runPipeline, hbe, Log, Status]

theorem C10_witness :
    invokedCmds (runPipeline envCgoBad bIP).2 =
      [{ OS := "linux", Arch := "arm64", UseCgo := true, Tags := ([] : List String) },
       { OS := "linux", Arch := "amd64", UseCgo := false, Tags := [""] }].map (cmdString bIP) ∧
    (runPipeline envCgoBad bIP).1.status = BuildFailed ∧
    Log (runPipeline envCgoBad bIP).1 = "Unknown architecture \"arm64\"" :=
  C10_cgo_unknown_no_skip envCgoBad bIP "linux:arm64(cgo) linux:amd64"
    "Unknown architecture \"arm64\""
    [{ OS := "linux", Arch := "arm64", UseCgo := true, Tags := [] },
     { OS := "linux", Arch := "amd64", UseCgo := false, Tags := [""] }]
    (by decide) (by decide) (by decide) (by decide) (by decide) (by decide)
    (fun i _ => ⟨"done\n", rfl⟩) (by decide)

end Goci
